import Mathlib

/-!
# TelegramAI: reminder and grade-change bot (`main.go`)

A shallow embedding of the scheduling logic of `main.go`.

Conventions of the embedding.

* A Go `time.Time` is an `Int`: nanoseconds elapsed since the zero instant of
  `time.Time` (January 1, year 1, 00:00:00 UTC), so `IsZero` is `t = 0`.
  A `time.Duration` is an `Int` number of nanoseconds.  `Time.Sub` saturates
  at the bounds of a 64 bit duration, as the Go library does.
* Go `int` identifiers are `Int`.
* A `float64` score decoded from JSON is finite; it is identified with the
  rational number it denotes, so that the Go comparison `!=` is disequality
  (the two signed zeros denote the same number and compare equal in Go).
* Every `time.Now()` of the source is an explicit argument.
* Goroutines launched by `scheduleReminder` are kept in a list of pending
  reminders; a pending reminder fires in a separate step.
* Only fetches, sleeps, launched goroutines and `sendMessage` calls are
  observable; `fmt.Printf` output is not recorded.
-/

namespace TelegramAI

/-! ## Time -/

/-- Go `time.Second` in nanoseconds. -/
def Second : Int := 1000000000

/-- Go `time.Minute`. -/
def Minute : Int := 60 * Second

/-- Go `time.Hour`. -/
def Hour : Int := 60 * Minute

/-- Largest `time.Duration` (`1<<63 - 1`). -/
def maxDuration : Int := 9223372036854775807

/-- Smallest `time.Duration` (`-1 << 63`). -/
def minDuration : Int := -9223372036854775808

/-- Go `t.Sub(u)`: the difference as a duration, saturated when out of range. -/
def timeSub (t u : Int) : Int :=
  if t - u > maxDuration then maxDuration
  else if t - u < minDuration then minDuration
  else t - u

/-- Go `t.After(u)`. -/
def timeAfter (t u : Int) : Bool := decide (u < t)

/-- Go `t.IsZero()`. -/
def timeIsZero (t : Int) : Bool := decide (t = 0)

/-- Go `t.Add(d)`. -/
def timeAdd (t d : Int) : Int := t + d

/-! ## Data model -/

/-- The `Assignment` struct. -/
structure Assignment where
  ID : Int
  Name : String
  DueAt : Int
  HasSubmitted : Bool
  HTMLURL : String
deriving DecidableEq

/-- The package variable `reminderTracker : map[int]map[time.Duration]bool`.
An absent key is `none`. -/
abbrev ReminderTracker := Int → Option (Int → Bool)

/-- Go read `reminderTracker[id][interval]`: reading a missing key of the outer
map gives a nil inner map, and reading a nil or missing entry gives `false`. -/
def trackerGet (tr : ReminderTracker) (id interval : Int) : Bool :=
  match tr id with
  | none => false
  | some m => m interval

/-- Lines 263-265 of `scheduleReminder`: create the inner map when the
assignment has none. -/
def trackerEnsure (tr : ReminderTracker) (id : Int) : ReminderTracker :=
  match tr id with
  | none => fun k => if k = id then some (fun _ => false) else tr k
  | some _ => tr

/-- A goroutine launched at line 280 of `scheduleReminder`: it sleeps until
`reminderTime`, sends the notification of `assignment`, then marks `interval`. -/
structure Reminder where
  assignment : Assignment
  reminderTime : Int
  interval : Int
deriving DecidableEq

/-- The state the daily reminder code works on: the tracker, the goroutines
launched and not yet fired, and the notifications sent so far (each recorded
with the goroutine that sent it). -/
structure World where
  reminderTracker : ReminderTracker
  pending : List Reminder
  sent : List Reminder

/-- The state at process start: empty tracker, no goroutine, nothing sent. -/
def World.init : World :=
  { reminderTracker := fun _ => none, pending := [], sent := [] }

/-! ## Reminder scheduling -/

/-- The slice `reminderIntervals` of `scheduleReminder`. -/
def reminderIntervals : List Int := [12 * Hour, 6 * Hour, 3 * Hour, 1 * Hour]

/-- One iteration of the loop of `scheduleReminder` (lines 274-286), adding the
launched goroutine to `acc`. -/
def scheduleStep (now : Int) (a : Assignment) (tr : ReminderTracker)
    (acc : List Reminder) (interval : Int) : List Reminder :=
  let reminderTime := timeAdd a.DueAt (-interval)
  if timeAfter now reminderTime || trackerGet tr a.ID interval then acc
  else acc ++ [{ assignment := a, reminderTime := reminderTime, interval := interval }]

/-- The goroutines launched by one call of `scheduleReminder`, in launch order. -/
def launched (now : Int) (a : Assignment) (tr : ReminderTracker) : List Reminder :=
  reminderIntervals.foldl (scheduleStep now a (trackerEnsure tr a.ID)) []

/-- The function `scheduleReminder`, called when the clock reads `now`. -/
def scheduleReminder (now : Int) (a : Assignment) (w : World) : World :=
  { w with
    reminderTracker := trackerEnsure w.reminderTracker a.ID
    pending := w.pending ++ launched now a w.reminderTracker }

/-- The loop of `processAssignments` with the callee abstracted: `f` stands for
the call `scheduleReminder(assignment)` at line 253. -/
def processAssignmentsWith {σ : Type} (f : Assignment → σ → σ) (now : Int) :
    List Assignment → σ → σ
  | [], s => s
  | a :: rest, s =>
    if timeIsZero a.DueAt || timeAfter now a.DueAt then
      processAssignmentsWith f now rest s
    else
      let timeUntilDue := timeSub a.DueAt now
      if decide (timeUntilDue > 0) && decide (timeUntilDue ≤ 48 * Hour) then
        if a.HasSubmitted then processAssignmentsWith f now rest s
        else processAssignmentsWith f now rest (f a s)
      else processAssignmentsWith f now rest s

/-- The function `processAssignments`: `now` is the clock reading at line 242
and `schedNow a` the clock reading inside the call `scheduleReminder(a)`. -/
def processAssignments (now : Int) (schedNow : Assignment → Int)
    (assignments : List Assignment) (w : World) : World :=
  processAssignmentsWith (fun a s => scheduleReminder (schedNow a) a s) now assignments w

/-- The assignments handed to `scheduleReminder` by one pass, in call order. -/
def handedToSchedule (now : Int) (assignments : List Assignment) : List Assignment :=
  processAssignmentsWith (fun a l => l ++ [a]) now assignments []

/-- The guard of `processAssignments` as one Boolean. -/
def qualifies (now : Int) (a : Assignment) : Bool :=
  !(timeIsZero a.DueAt || timeAfter now a.DueAt) &&
    (decide (timeSub a.DueAt now > 0) && decide (timeSub a.DueAt now ≤ 48 * Hour)) &&
    !a.HasSubmitted

/-! ## Firing of a pending reminder -/

/-- Go write `reminderTracker[id][interval] = true`; writing into a missing
inner map panics, which is `none`. -/
def trackerMark (tr : ReminderTracker) (id interval : Int) : Option ReminderTracker :=
  match tr id with
  | none => none
  | some m =>
    some (fun k => if k = id then some (fun i => if i = interval then true else m i) else tr k)

/-- The goroutine at position `k` of the pending list wakes up when the clock
reads `t` (lines 282-284): it calls `sendNotification` and then marks its
interval.  `none` when there is no such goroutine, when it is still asleep
(`t` is before its `reminderTime`), or when the map write panics. -/
def fire (k : Nat) (t : Int) (w : World) : Option World :=
  match w.pending.get? k with
  | none => none
  | some r =>
    if t < r.reminderTime then none
    else
      match trackerMark w.reminderTracker r.assignment.ID r.interval with
      | none => none
      | some tr =>
        some { reminderTracker := tr, pending := w.pending.eraseIdx k, sent := w.sent ++ [r] }

/-! ## The daily reminder loop -/

/-- A Go `*time.Location`: the offset from UTC in force before the first zone
transition, and the zone transitions in increasing order of their instant, each
with the offset in force from that instant on (the transitions Go derives from
the rule at the end of a zone file are listed like the others).  Instants and
offsets are in nanoseconds; Go keeps both in whole seconds. -/
structure Location where
  initial : Int
  transitions : List (Int × Int)

/-- What Go `Location.lookup` returns for an instant: the offset in force and the
bounds `start ≤ t < stop` of the period of that offset; `none` is the absence
of a bound (Go `alpha` and `omega`). -/
structure ZoneSpan where
  offset : Int
  start : Option Int
  stop : Option Int

/-- The search of `Location.lookup` for the last transition at or before `t`,
with `offset` in force since `start`. -/
def lookupFrom (offset : Int) (start : Option Int) : List (Int × Int) → Int → ZoneSpan
  | [], _ => { offset := offset, start := start, stop := none }
  | (w, o) :: rest, t =>
    if t < w then { offset := offset, start := start, stop := some w }
    else lookupFrom o (some w) rest t

/-- Go `Location.lookup`. -/
def Location.lookup (loc : Location) (t : Int) : ZoneSpan :=
  lookupFrom loc.initial none loc.transitions t

/-- The offset from UTC in force in `loc` at the instant `t`. -/
def offsetAt (loc : Location) (t : Int) : Int := (loc.lookup t).offset

/-- The wall clock of `loc` at the instant `t`, as nanoseconds since local
midnight of January 1, year 1: its quotient by 24 hours is the local date and
its remainder the local time of day. -/
def wallClock (loc : Location) (t : Int) : Int := t + offsetAt loc t

/-- The test `utc < start || utc >= end` of `time.Date`. -/
def outsideSpan (z : ZoneSpan) (utc : Int) : Bool :=
  (match z.start with
    | none => false
    | some a => decide (utc < a)) ||
  (match z.stop with
    | none => false
    | some b => decide (b ≤ utc))

/-- Go `time.Date(now.Year(), now.Month(), now.Day(), 8, 0, 0, 0, now.Location())`.
The date of `now` is read off the wall clock of `now`; `time.Date` takes 08:00:00
of that date as if it were UTC (`unix`), looks up the offset in force there, and
looks it up again at the corrected instant when that one falls outside the period
found. -/
def eightOClock (loc : Location) (now : Int) : Int :=
  let wall := wallClock loc now
  let unix := wall - wall % (24 * Hour) + 8 * Hour
  let z := loc.lookup unix
  if z.offset ≠ 0 then
    let utc := unix - z.offset
    if outsideSpan z utc then unix - (loc.lookup utc).offset
    else unix - z.offset
  else unix

/-- Lines 90-94 of `startDailyReminderBot`: the next wake-up time. -/
def nextRun (loc : Location) (now : Int) : Int :=
  let nextRun := eightOClock loc now
  if timeAfter now nextRun then timeAdd nextRun (24 * Hour) else nextRun

/-- What the environment supplies to one fetch-and-evaluate step: the result of
`fetchAssignments` (`none` is an error, such as a status other than 200 or a
body that does not decode), and the clock readings of the evaluation. -/
structure Fetch where
  response : Option (List Assignment)
  procNow : Int
  schedNow : Assignment → Int

/-- One turn of the `for` loop: the clock reading `now` at line 90 and the
fetch performed after waking up. -/
structure Tick where
  now : Int
  fetch : Fetch

/-- The observable steps of the daily loop. -/
inductive DailyEvent where
  | fetched (ok : Bool)
  | sleepUntil (t : Int)
deriving DecidableEq

/-- The state of one daily loop together with its log of events. -/
structure DailyState where
  world : World
  log : List DailyEvent

/-- Lines 83-88 and 97-102: fetch, then evaluate unless the fetch failed. -/
def fetchAndProcess (f : Fetch) (s : DailyState) : DailyState :=
  match f.response with
  | none => { s with log := s.log ++ [DailyEvent.fetched false] }
  | some assignments =>
    { world := processAssignments f.procNow f.schedNow assignments s.world
      log := s.log ++ [DailyEvent.fetched true] }

/-- How one turn of a `for` loop ends: with `next` the loop goes on to its next
turn from the state given (the end of the body, or `continue`); with `leave`
the loop is left (`break`, `return`, or the end of the process). -/
inductive LoopFlow (σ : Type) where
  | next (s : σ)
  | leave (s : σ)

/-- One turn of the `for` loop of `startDailyReminderBot` (lines 90-102): compute
`nextRun`, sleep until then, fetch; on an error `continue`, otherwise evaluate
the assignments. -/
def dailyIteration (loc : Location) (s : DailyState) (t : Tick) : LoopFlow DailyState :=
  let slept := s.log ++ [DailyEvent.sleepUntil (nextRun loc t.now)]
  match t.fetch.response with
  | none => LoopFlow.next { world := s.world, log := slept ++ [DailyEvent.fetched false] }
  | some assignments =>
    LoopFlow.next
      { world := processAssignments t.fetch.procNow t.fetch.schedNow assignments s.world
        log := slept ++ [DailyEvent.fetched true] }

/-- A step of a run of one daily loop interleaved with its goroutines. -/
inductive Action where
  | start (f : Fetch)
  | tick (t : Tick)
  | fire (k : Nat) (t : Int)

/-- One step of a run. -/
def step (loc : Location) (s : DailyState) : Action → Option DailyState
  | Action.start f => some (fetchAndProcess f s)
  | Action.tick t =>
    match dailyIteration loc s t with
    | LoopFlow.next s' => some s'
    | LoopFlow.leave _ => none
  | Action.fire k t => (fire k t s.world).map (fun w => { s with world := w })

/-- A run: the steps in order, `none` as soon as one of them is impossible. -/
def run (loc : Location) : List Action → DailyState → Option DailyState
  | [], s => some s
  | a :: rest, s =>
    match step loc s a with
    | none => none
    | some s' => run loc rest s'

/-- The number of notifications sent for the pair of assignment `id` and
lead-time `interval`. -/
def sentCount (w : World) (id interval : Int) : Nat :=
  (w.sent.filter (fun r => decide (r.assignment.ID = id) && decide (r.interval = interval))).length

/-! ## The hourly grade-change loop -/

/-- An element of `Course.Enrollments`. -/
structure Enrollment where
  ComputedCurrentGrade : String
  ComputedCurrentScore : ℚ
  ComputedCurrentLetterGrade : String
  ComputedFinalGrade : String
  ComputedFinalScore : ℚ
deriving DecidableEq

/-- The `Course` struct. -/
structure Course where
  ID : Int
  Name : String
  CourseCode : String
  Enrollments : List Enrollment
deriving DecidableEq

/-- The local `globalScoreTracker : map[int]float64`. -/
abbrev ScoreTracker := Int → Option ℚ

/-- Go read `globalScoreTracker[id]`: zero when the key is absent. -/
def scoreGet (tr : ScoreTracker) (id : Int) : ℚ :=
  match tr id with
  | none => 0
  | some v => v

/-- Go write `globalScoreTracker[id] = v`. -/
def scoreSet (tr : ScoreTracker) (id : Int) (v : ℚ) : ScoreTracker :=
  fun k => if k = id then some v else tr k

/-- The observable steps of the hourly loop; `scoreChange` is the call of
`sendMessage` at line 123, recorded with the course it is about. -/
inductive HourlyEvent where
  | fetched (ok : Bool)
  | scoreChange (courseID : Int) (courseCode : String) (score : ℚ)
  | sleep (d : Int)
deriving DecidableEq

/-- The state of the hourly loop together with its log of events. -/
structure HourlyState where
  globalScoreTracker : ScoreTracker
  log : List HourlyEvent

/-- The body of the inner loop (lines 121-125) for one enrollment. -/
def checkEnrollment (c : Course) (s : HourlyState) (e : Enrollment) : HourlyState :=
  if scoreGet s.globalScoreTracker c.ID ≠ e.ComputedCurrentScore then
    { globalScoreTracker := scoreSet s.globalScoreTracker c.ID e.ComputedCurrentScore
      log := s.log ++ [HourlyEvent.scoreChange c.ID c.CourseCode e.ComputedCurrentScore] }
  else s

/-- The inner loop over the enrollments of one course (lines 120-128). -/
def checkCourse (s : HourlyState) (c : Course) : HourlyState :=
  c.Enrollments.foldl (checkEnrollment c) s

/-- The loop over the fetched courses (lines 119-129). -/
def checkCourses (courses : List Course) (s : HourlyState) : HourlyState :=
  courses.foldl checkCourse s

/-- One turn of the `for` loop of `startHourlyGradeReminderBot` (lines 111-132);
`none` is a failed `fetchCourses`, after which line 115 is `continue`. -/
def hourlyIteration (s : HourlyState) (response : Option (List Course)) : HourlyState :=
  match response with
  | none => { s with log := s.log ++ [HourlyEvent.fetched false] }
  | some courses =>
    let s1 := checkCourses courses { s with log := s.log ++ [HourlyEvent.fetched true] }
    { s1 with log := s1.log ++ [HourlyEvent.sleep Hour] }

/-- The function `startHourlyGradeReminderBot`, run for as many turns of its
endless loop as there are fetch results in `responses`. -/
def startHourlyGradeReminderBot (responses : List (Option (List Course))) : HourlyState :=
  responses.foldl hourlyIteration { globalScoreTracker := fun _ => none, log := [] }

/-- The courses notified about in a log, in order. -/
def notified : List HourlyEvent → List Int
  | [] => []
  | HourlyEvent.scoreChange id _ _ :: rest => id :: notified rest
  | _ :: rest => notified rest

/-- One check pass over `courses` from the tracker `tr`: the courses notified
about, in order, and the tracker afterwards. -/
def checkPass (courses : List Course) (tr : ScoreTracker) : List Int × ScoreTracker :=
  let s := checkCourses courses { globalScoreTracker := tr, log := [] }
  (notified s.log, s.globalScoreTracker)

/-- The current score a course record reports through its first enrollment
record (zero for a record without enrollments). -/
def currentScore (c : Course) : ℚ :=
  match c.Enrollments with
  | [] => 0
  | e :: _ => e.ComputedCurrentScore

/-! ## The notifier -/

/-- The result of `http.Post` for one recipient: a transport error, or a
response with its status code and whether its body decodes as JSON. -/
inductive PostResult where
  | transportError
  | response (statusCode : Nat) (bodyDecodes : Bool)
deriving DecidableEq

/-- The observable steps of `sendMessage`. -/
inductive SendEvent where
  | post (chatID : String) (text : String)
  | logged (chatID : String)
deriving DecidableEq

/-- How a call of `sendMessage` ends: `log.Fatal` terminates the process, or
the function returns its `error` (`none` is `nil`). -/
inductive SendResult where
  | fatal (events : List SendEvent)
  | returned (err : Option String) (events : List SendEvent)
deriving DecidableEq

/-- The slice `chatIDs` of `sendMessage`. -/
def chatIDs : List String := ["6995936214"]

/-- The body of the loop of `sendMessage` (lines 325-356) for one recipient.
The payload is a `map[string]string`, for which `json.Marshal` has no error
case, so the branch of lines 333-336 is never taken. -/
def sendOne (http : String → PostResult) (message : String)
    (events : List SendEvent) (chatID : String) : List SendEvent :=
  match http chatID with
  | PostResult.transportError =>
    events ++ [SendEvent.post chatID message, SendEvent.logged chatID]
  | PostResult.response statusCode bodyDecodes =>
    if statusCode = 200 then events ++ [SendEvent.post chatID message]
    else if bodyDecodes then events ++ [SendEvent.post chatID message]
    else events ++ [SendEvent.post chatID message, SendEvent.logged chatID]

/-- The loop of `sendMessage` over a slice of recipients. -/
def sendLoop (recipients : List String) (http : String → PostResult)
    (message : String) : List SendEvent :=
  recipients.foldl (sendOne http message) []

/-- The function `sendMessage` over a slice of recipients.  `dotEnv` is `none`
when there is no `.env` file and otherwise tells whether loading it succeeds;
`botToken` is the value of `BOT_TOKEN` afterwards. -/
def sendMessageTo (recipients : List String) (dotEnv : Option Bool) (botToken : String)
    (http : String → PostResult) (message : String) : SendResult :=
  if dotEnv = some false then SendResult.fatal []
  else if botToken = "" then SendResult.fatal []
  else SendResult.returned none (sendLoop recipients http message)

/-- The function `sendMessage`. -/
def sendMessage (dotEnv : Option Bool) (botToken : String)
    (http : String → PostResult) (message : String) : SendResult :=
  sendMessageTo chatIDs dotEnv botToken http message

/-- The recipients a post was attempted to, in order, with the text posted. -/
def posts : List SendEvent → List (String × String)
  | [] => []
  | SendEvent.post c m :: rest => (c, m) :: posts rest
  | SendEvent.logged _ :: rest => posts rest

/-! ## Concrete scenarios -/

/-- The location UTC. -/
def utcLocation : Location := { initial := 0, transitions := [] }

/-- Midnight UTC of an arbitrary day (day 739000 after the zero instant). -/
def day0 : Int := 739000 * (24 * Hour)

/-- An unsubmitted assignment due at 22:00 of `day0`. -/
def essay : Assignment :=
  { ID := 42, Name := "Essay", DueAt := day0 + 22 * Hour, HasSubmitted := false,
    HTMLURL := "https://canvas.instructure.com/courses/1/assignments/42" }

/-- A successful fetch returning `essay`, evaluated when the clock reads `t`. -/
def essayFetch (t : Int) : Fetch :=
  { response := some [essay], procNow := t, schedNow := fun _ => t }

/-- A loop started at 07:00 of `day0`: the initial fetch and the 08:00 fetch both
return `essay`; at 10:00 the two goroutines launched for the 12h lead-time wake
up, one after the other. -/
def duplicateRun : List Action :=
  [Action.start (essayFetch (day0 + 7 * Hour)),
   Action.tick { now := day0 + 7 * Hour, fetch := essayFetch (day0 + 8 * Hour) },
   Action.fire 0 (day0 + 10 * Hour),
   Action.fire 3 (day0 + 10 * Hour)]

/-- A course record with identifier `id`, code `code` and one enrollment record
whose current score is `score`. -/
def gradeCourse (id : Int) (code : String) (score : ℚ) : Course :=
  { ID := id, Name := code, CourseCode := code,
    Enrollments := [⟨"", score, "", "", score⟩] }

/-- A course record with two enrollment records of current scores `s1`, `s2`. -/
def twoTermCourse (id : Int) (code : String) (s1 s2 : ℚ) : Course :=
  { ID := id, Name := code, CourseCode := code,
    Enrollments := [⟨"", s1, "", "", s1⟩, ⟨"", s2, "", "", s2⟩] }

/-! ## Lemmas on time and on the tracker -/

theorem timeSub_pos_iff (t u : Int) : 0 < timeSub t u ↔ 0 < t - u := by
  unfold timeSub maxDuration minDuration
  split_ifs <;> omega

theorem timeSub_le_iff (t u : Int) : timeSub t u ≤ 48 * Hour ↔ t - u ≤ 48 * Hour := by
  unfold timeSub maxDuration minDuration Hour Minute Second
  split_ifs <;> omega

theorem trackerGet_trackerEnsure (tr : ReminderTracker) (id interval : Int) :
    trackerGet (trackerEnsure tr id) id interval = trackerGet tr id interval := by
  unfold trackerEnsure trackerGet
  cases h : tr id with
  | none => simp
  | some m => simp [h]

theorem processAssignmentsWith_eq_foldl {σ : Type} (f : Assignment → σ → σ) (now : Int)
    (assignments : List Assignment) (s : σ) :
    processAssignmentsWith f now assignments s =
      (assignments.filter (qualifies now)).foldl (fun s a => f a s) s := by
  induction assignments generalizing s with
  | nil => rfl
  | cons a rest ih =>
    unfold processAssignmentsWith
    by_cases h1 : (timeIsZero a.DueAt || timeAfter now a.DueAt) = true
    · have hq : qualifies now a = false := by simp [qualifies, h1]
      rw [if_pos h1, ih, List.filter_cons_of_neg (by simp [hq])]
    · rw [if_neg h1]
      by_cases h2 : (decide (timeSub a.DueAt now > 0) &&
          decide (timeSub a.DueAt now ≤ 48 * Hour)) = true
      · simp only [h2, if_true]
        by_cases h3 : a.HasSubmitted = true
        · have hq : qualifies now a = false := by simp [qualifies, h3]
          rw [if_pos h3, ih, List.filter_cons_of_neg (by simp [hq])]
        · have hq : qualifies now a = true := by
            simp only [qualifies, h2]
            simp [h1, h3]
          rw [if_neg h3, ih, List.filter_cons_of_pos hq, List.foldl_cons]
      · have hq : qualifies now a = false := by
          simp only [qualifies]
          simp only [Bool.not_eq_true] at h2
          simp [h2]
        simp only [h2]
        rw [ih, List.filter_cons_of_neg (by simp [hq])]
        simp

theorem qualifies_iff (now : Int) (a : Assignment) :
    qualifies now a = true ↔
      (a.DueAt ≠ 0 ∧ 0 < a.DueAt - now ∧ a.DueAt - now ≤ 48 * Hour ∧ a.HasSubmitted = false) := by
  have hp := timeSub_pos_iff a.DueAt now
  have hl := timeSub_le_iff a.DueAt now
  simp only [qualifies, timeIsZero, timeAfter, Bool.and_eq_true, Bool.not_eq_true',
    Bool.or_eq_false_iff, decide_eq_false_iff_not, decide_eq_true_eq, gt_iff_lt]
  constructor
  · rintro ⟨⟨⟨h0, _⟩, h2, h3⟩, h4⟩
    exact ⟨h0, hp.mp h2, hl.mp h3, h4⟩
  · rintro ⟨h0, h2, h3, h4⟩
    exact ⟨⟨⟨h0, by omega⟩, hp.mpr h2, hl.mpr h3⟩, h4⟩

theorem foldl_snoc_eq {α : Type} (l acc : List α) :
    l.foldl (fun l a => l ++ [a]) acc = acc ++ l := by
  induction l generalizing acc with
  | nil => simp
  | cons a rest ih => simp [ih]

theorem launched_eq_filter (now : Int) (a : Assignment) (tr : ReminderTracker) :
    launched now a tr =
      (reminderIntervals.filter
        (fun L => decide (now ≤ a.DueAt - L) && !trackerGet tr a.ID L)).map
        (fun L => { assignment := a, reminderTime := a.DueAt - L, interval := L }) := by
  have key : ∀ (ls : List Int) (acc : List Reminder),
      ls.foldl (scheduleStep now a (trackerEnsure tr a.ID)) acc =
        acc ++ (ls.filter (fun L => decide (now ≤ a.DueAt - L) && !trackerGet tr a.ID L)).map
          (fun L => { assignment := a, reminderTime := a.DueAt - L, interval := L }) := by
    intro ls
    induction ls with
    | nil => intro acc; simp
    | cons L rest ih =>
      intro acc
      rw [List.foldl_cons, ih]
      unfold scheduleStep timeAfter timeAdd
      simp only [trackerGet_trackerEnsure]
      by_cases h1 : now ≤ a.DueAt - L
      · have h1' : ¬ (a.DueAt + -L < now) := by omega
        cases h2 : trackerGet tr a.ID L
        · rw [List.filter_cons_of_pos (by simp [h1, h2])]
          simp [h1', Int.sub_eq_add_neg]
        · rw [List.filter_cons_of_neg (by simp [h2])]
          simp
      · have h1' : a.DueAt + -L < now := by omega
        rw [List.filter_cons_of_neg (by simp [h1])]
        simp [h1']
  simpa using key reminderIntervals []

/-! ## The claims -/

/-- C2: in `processAssignments`, run when the clock reads `now`, the assignments
handed to `scheduleReminder` are exactly those of the list whose due time is
set (non-zero), with `0 < due - now ≤ 48h`, and which are not submitted, in list
order; the pass itself is the sequence of these `scheduleReminder` calls.  Hence
an assignment due more than 48 hours ahead, already past due, without due date,
or already submitted is not handed over. -/
theorem processAssignments_hands_exactly (now : Int) (assignments : List Assignment) :
    handedToSchedule now assignments =
        assignments.filter (fun a => decide (a.DueAt ≠ 0 ∧ 0 < a.DueAt - now ∧
          a.DueAt - now ≤ 48 * Hour ∧ a.HasSubmitted = false))
    ∧ (∀ (schedNow : Assignment → Int) (w : World),
        processAssignments now schedNow assignments w =
          (handedToSchedule now assignments).foldl
            (fun s a => scheduleReminder (schedNow a) a s) w)
    ∧ (∀ a, (48 * Hour < a.DueAt - now ∨ a.DueAt < now ∨ a.DueAt = 0 ∨ a.HasSubmitted = true) →
        a ∉ handedToSchedule now assignments) := by
  have hh : handedToSchedule now assignments = assignments.filter (qualifies now) := by
    unfold handedToSchedule
    rw [processAssignmentsWith_eq_foldl, foldl_snoc_eq]
    simp
  have hf : assignments.filter (qualifies now) =
      assignments.filter (fun a => decide (a.DueAt ≠ 0 ∧ 0 < a.DueAt - now ∧
          a.DueAt - now ≤ 48 * Hour ∧ a.HasSubmitted = false)) := by
    apply List.filter_congr
    intro a _
    by_cases h : qualifies now a = true
    · rw [h]; exact (decide_eq_true ((qualifies_iff now a).mp h)).symm
    · have h' : ¬ (a.DueAt ≠ 0 ∧ 0 < a.DueAt - now ∧
          a.DueAt - now ≤ 48 * Hour ∧ a.HasSubmitted = false) :=
        fun hc => h ((qualifies_iff now a).mpr hc)
      rw [Bool.not_eq_true] at h
      rw [h]; exact (decide_eq_false h').symm
  refine ⟨hh.trans hf, ?_, ?_⟩
  · intro schedNow w
    rw [hh]
    exact processAssignmentsWith_eq_foldl _ now assignments w
  · intro a ha hmem
    rw [hh, List.mem_filter] at hmem
    obtain ⟨h0, h1, h2, h3⟩ := (qualifies_iff now a).mp hmem.2
    rcases ha with h | h | h | h
    · omega
    · omega
    · exact h0 h
    · rw [h3] at h; exact Bool.noConfusion h

/-- C2, at a concrete pass: of five assignments (due in 50 hours, past due,
without due date, submitted and due in 5 hours, unsubmitted and due in 5 hours)
only the last one is handed to `scheduleReminder`, and none of the others. -/
theorem processAssignments_hands_exactly_witness :
    handedToSchedule (100 * Hour)
        [⟨1, "far", 150 * Hour, false, ""⟩, ⟨2, "past", 99 * Hour, false, ""⟩,
         ⟨3, "undated", 0, false, ""⟩, ⟨4, "done", 105 * Hour, true, ""⟩,
         ⟨5, "open", 105 * Hour, false, ""⟩]
      = [⟨5, "open", 105 * Hour, false, ""⟩]
    ∧ (⟨1, "far", 150 * Hour, false, ""⟩ : Assignment) ∉
        handedToSchedule (100 * Hour)
          [⟨1, "far", 150 * Hour, false, ""⟩, ⟨2, "past", 99 * Hour, false, ""⟩,
           ⟨3, "undated", 0, false, ""⟩, ⟨4, "done", 105 * Hour, true, ""⟩,
           ⟨5, "open", 105 * Hour, false, ""⟩] :=
  ⟨by decide,
   (processAssignments_hands_exactly (100 * Hour) _).2.2 ⟨1, "far", 150 * Hour, false, ""⟩
     (Or.inl (by decide))⟩

/-- C3: a call of `scheduleReminder` for assignment `a` when the clock reads
`now` launches a reminder for a lead-time `L` of 12h, 6h, 3h, 1h exactly when
`now` is not after `due - L` and `L` is not marked sent for `a` in the tracker;
the reminders are launched in that order, each waking at `due - L`, and are
added to the pending ones.  So for an assignment due in exactly 5 hours with
nothing marked sent, the reminders launched are those for 3h and 1h. -/
theorem scheduleReminder_launches_exactly (now : Int) (a : Assignment) (w : World) :
    (scheduleReminder now a w).pending =
        w.pending ++ (reminderIntervals.filter
          (fun L => decide (¬ (a.DueAt - L < now)) && !trackerGet w.reminderTracker a.ID L)).map
          (fun L => { assignment := a, reminderTime := a.DueAt - L, interval := L })
    ∧ (∀ L ∈ reminderIntervals,
        ((∃ r ∈ launched now a w.reminderTracker, r.interval = L) ↔
          (¬ (a.DueAt - L < now) ∧ trackerGet w.reminderTracker a.ID L = false)))
    ∧ (a.DueAt = now + 5 * Hour → (∀ L, trackerGet w.reminderTracker a.ID L = false) →
        (launched now a w.reminderTracker).map (fun r => r.interval) = [3 * Hour, 1 * Hour]) := by
  have hl := launched_eq_filter now a w.reminderTracker
  refine ⟨?_, ?_, ?_⟩
  · show w.pending ++ launched now a w.reminderTracker = _
    rw [hl]
    simp only [not_lt]
  · intro L hL
    rw [hl]
    constructor
    · rintro ⟨r, hr, hrL⟩
      rw [List.mem_map] at hr
      obtain ⟨L', hL', rfl⟩ := hr
      simp only at hrL
      subst hrL
      rw [List.mem_filter] at hL'
      have h2 := hL'.2
      simp only [Bool.and_eq_true, decide_eq_true_eq, Bool.not_eq_true'] at h2
      exact ⟨by omega, h2.2⟩
    · rintro ⟨h1, h2⟩
      refine ⟨{ assignment := a, reminderTime := a.DueAt - L, interval := L }, ?_, rfl⟩
      rw [List.mem_map]
      refine ⟨L, ?_, rfl⟩
      rw [List.mem_filter]
      refine ⟨hL, ?_⟩
      simp only [Bool.and_eq_true, decide_eq_true_eq, Bool.not_eq_true']
      exact ⟨by omega, h2⟩
  · intro hdue hnone
    rw [hl, hdue]
    simp only [hnone, reminderIntervals, Hour, Minute, Second, List.filter_cons, List.filter_nil]
    have e1 : ¬ (now ≤ now + 18000000000000 - 43200000000000) := by omega
    have e2 : ¬ (now ≤ now + 18000000000000 - 21600000000000) := by omega
    have e3 : now ≤ now + 18000000000000 - 10800000000000 := by omega
    have e4 : now ≤ now + 18000000000000 - 3600000000000 := by omega
    norm_num [e1, e2, e3, e4]

/-- C3, at a concrete call: an unsubmitted assignment due in exactly 5 hours,
with an empty tracker, gets the 3h and 1h reminders and no other. -/
theorem scheduleReminder_launches_exactly_witness :
    (launched (100 * Hour) ⟨7, "essay", 105 * Hour, false, ""⟩ World.init.reminderTracker).map
        (fun r => r.interval) = [3 * Hour, 1 * Hour] :=
  (scheduleReminder_launches_exactly (100 * Hour) ⟨7, "essay", 105 * Hour, false, ""⟩
    World.init).2.2 (by decide) (fun _ => rfl)


/-- C1, evaluated on the code: a loop in UTC started at 07:00 whose initial fetch and
08:00 fetch both return the same unsubmitted assignment due at 22:00 launches
the 12h reminder twice, because the interval is marked only when a reminder
fires; both goroutines wake at 10:00 and two notifications are sent for the
pair (assignment 42, 12h). -/
theorem duplicate_reminder_sent :
    (run utcLocation duplicateRun { world := World.init, log := [] }).map
        (fun s => (sentCount s.world 42 (12 * Hour), s.log)) =
      some (2, [DailyEvent.fetched true, DailyEvent.sleepUntil (day0 + 8 * Hour),
        DailyEvent.fetched true]) := by
  decide

/-- C6, evaluated on the code: when `fetchCourses` fails twice and then
succeeds, the hourly loop issues the three fetches one after the other; no
sleep stands between a failed fetch and the next fetch. -/
theorem hourly_failure_retried_at_once :
    (startHourlyGradeReminderBot [none, none, some []]).log =
      [HourlyEvent.fetched false, HourlyEvent.fetched false, HourlyEvent.fetched true,
       HourlyEvent.sleep Hour] := by
  decide

/-! ## Lemmas on the hourly check -/

theorem notified_append (l1 l2 : List HourlyEvent) :
    notified (l1 ++ l2) = notified l1 ++ notified l2 := by
  induction l1 with
  | nil => rfl
  | cons ev rest ih =>
    cases ev <;> simp [notified, ih]

theorem foldl_frame {α : Type} (f : HourlyState → α → HourlyState)
    (hf : ∀ tr l a, f ⟨tr, l⟩ a =
      ⟨(f ⟨tr, []⟩ a).globalScoreTracker, l ++ (f ⟨tr, []⟩ a).log⟩)
    (xs : List α) (tr : ScoreTracker) (l : List HourlyEvent) :
    xs.foldl f ⟨tr, l⟩ =
      ⟨(xs.foldl f ⟨tr, []⟩).globalScoreTracker, l ++ (xs.foldl f ⟨tr, []⟩).log⟩ := by
  induction xs generalizing tr l with
  | nil => simp
  | cons a rest ih =>
    rw [List.foldl_cons, List.foldl_cons, hf tr l a, ih]
    have h2 := ih (f ⟨tr, []⟩ a).globalScoreTracker (f ⟨tr, []⟩ a).log
    rw [h2]
    simp [List.append_assoc]

theorem checkEnrollment_frame (c : Course) (tr : ScoreTracker) (l : List HourlyEvent)
    (e : Enrollment) :
    checkEnrollment c ⟨tr, l⟩ e =
      ⟨(checkEnrollment c ⟨tr, []⟩ e).globalScoreTracker,
        l ++ (checkEnrollment c ⟨tr, []⟩ e).log⟩ := by
  unfold checkEnrollment
  by_cases h : scoreGet tr c.ID = e.ComputedCurrentScore <;> simp [h]

theorem checkCourse_frame (tr : ScoreTracker) (l : List HourlyEvent) (c : Course) :
    checkCourse ⟨tr, l⟩ c =
      ⟨(checkCourse ⟨tr, []⟩ c).globalScoreTracker, l ++ (checkCourse ⟨tr, []⟩ c).log⟩ :=
  foldl_frame (checkEnrollment c) (checkEnrollment_frame c) c.Enrollments tr l

theorem checkCourses_frame (courses : List Course) (tr : ScoreTracker)
    (l : List HourlyEvent) :
    checkCourses courses ⟨tr, l⟩ =
      ⟨(checkCourses courses ⟨tr, []⟩).globalScoreTracker,
        l ++ (checkCourses courses ⟨tr, []⟩).log⟩ :=
  foldl_frame checkCourse checkCourse_frame courses tr l

theorem checkPass_append (xs ys : List Course) (tr : ScoreTracker) :
    checkPass (xs ++ ys) tr =
      ((checkPass xs tr).1 ++ (checkPass ys (checkPass xs tr).2).1,
        (checkPass ys (checkPass xs tr).2).2) := by
  have h : checkCourses (xs ++ ys) ⟨tr, []⟩ =
      checkCourses ys (checkCourses xs ⟨tr, []⟩) := by
    simp [checkCourses, List.foldl_append]
  have h2 := checkCourses_frame ys (checkCourses xs ⟨tr, []⟩).globalScoreTracker
    (checkCourses xs ⟨tr, []⟩).log
  simp only [checkPass, h]
  rw [h2]
  simp [notified_append]

theorem checkPass_cons (c : Course) (cs : List Course) (tr : ScoreTracker) :
    checkPass (c :: cs) tr =
      ((checkPass [c] tr).1 ++ (checkPass cs (checkPass [c] tr).2).1,
        (checkPass cs (checkPass [c] tr).2).2) :=
  checkPass_append [c] cs tr

theorem checkEnrollment_other (c : Course) (s : HourlyState) (e : Enrollment) (id : Int)
    (h : c.ID ≠ id) :
    (checkEnrollment c s e).globalScoreTracker id = s.globalScoreTracker id ∧
      (notified (checkEnrollment c s e).log).count id = (notified s.log).count id := by
  unfold checkEnrollment
  by_cases hs : scoreGet s.globalScoreTracker c.ID = e.ComputedCurrentScore
  · simp [hs]
  · have h' : ¬ (id = c.ID) := fun hc => h hc.symm
    simp [hs, scoreSet, h', notified_append, notified, List.count_cons, h]

theorem checkCourse_other (c : Course) (s : HourlyState) (id : Int) (h : c.ID ≠ id) :
    (checkCourse s c).globalScoreTracker id = s.globalScoreTracker id ∧
      (notified (checkCourse s c).log).count id = (notified s.log).count id := by
  unfold checkCourse
  generalize c.Enrollments = es
  induction es generalizing s with
  | nil => simp
  | cons e rest ih =>
    rw [List.foldl_cons]
    obtain ⟨h1, h2⟩ := checkEnrollment_other c s e id h
    obtain ⟨h3, h4⟩ := ih (checkEnrollment c s e)
    exact ⟨h3.trans h1, h4.trans h2⟩

theorem checkCourses_other (cs : List Course) (s : HourlyState) (id : Int)
    (h : ∀ c ∈ cs, c.ID ≠ id) :
    (checkCourses cs s).globalScoreTracker id = s.globalScoreTracker id ∧
      (notified (checkCourses cs s).log).count id = (notified s.log).count id := by
  unfold checkCourses
  induction cs generalizing s with
  | nil => simp
  | cons c rest ih =>
    rw [List.foldl_cons]
    obtain ⟨h1, h2⟩ := checkCourse_other c s id (h c (List.mem_cons_self _ _))
    obtain ⟨h3, h4⟩ := ih (checkCourse s c) (fun d hd => h d (List.mem_cons_of_mem _ hd))
    exact ⟨h3.trans h1, h4.trans h2⟩

theorem checkPass_other (cs : List Course) (tr : ScoreTracker) (id : Int)
    (h : ∀ c ∈ cs, c.ID ≠ id) :
    (checkPass cs tr).2 id = tr id ∧ (checkPass cs tr).1.count id = 0 := by
  obtain ⟨h1, h2⟩ := checkCourses_other cs ⟨tr, []⟩ id h
  exact ⟨h1, by simpa [checkPass, notified] using h2⟩

theorem scoreGet_congr (t1 t2 : ScoreTracker) (id : Int) (h : t1 id = t2 id) :
    scoreGet t1 id = scoreGet t2 id := by
  unfold scoreGet
  rw [h]

theorem checkPass_single (c : Course) (e : Enrollment) (tr : ScoreTracker)
    (h : c.Enrollments = [e]) :
    checkPass [c] tr =
      if scoreGet tr c.ID = e.ComputedCurrentScore then ([], tr)
      else ([c.ID], scoreSet tr c.ID e.ComputedCurrentScore) := by
  simp only [checkPass, checkCourses, checkCourse, h, List.foldl_cons, List.foldl_nil,
    checkEnrollment]
  by_cases hs : scoreGet tr c.ID = e.ComputedCurrentScore <;> simp [hs, notified]

theorem scoreGet_scoreSet (tr : ScoreTracker) (id : Int) (v : ℚ) :
    scoreGet (scoreSet tr id v) id = v := by
  simp [scoreGet, scoreSet]

theorem scoreGet_scoreSet_ne (tr : ScoreTracker) (id k : Int) (v : ℚ) (h : k ≠ id) :
    scoreGet (scoreSet tr id v) k = scoreGet tr k := by
  simp [scoreGet, scoreSet, h]

theorem scoreGet_empty (id : Int) : scoreGet (fun _ => none) id = 0 := rfl

theorem checkPass_pair (c : Course) (e1 e2 : Enrollment) (tr : ScoreTracker)
    (h : c.Enrollments = [e1, e2])
    (hne : e1.ComputedCurrentScore ≠ e2.ComputedCurrentScore) :
    (checkPass [c] tr).1 =
        (if scoreGet tr c.ID = e1.ComputedCurrentScore then [c.ID] else [c.ID, c.ID]) ∧
      scoreGet (checkPass [c] tr).2 c.ID = e2.ComputedCurrentScore := by
  simp only [checkPass, checkCourses, checkCourse, h, List.foldl_cons, List.foldl_nil,
    checkEnrollment]
  by_cases hs : scoreGet tr c.ID = e1.ComputedCurrentScore
  · have hs2 : ¬ (scoreGet tr c.ID = e2.ComputedCurrentScore) := fun hc => hne (hs.symm.trans hc)
    simp [hs, hne, notified, scoreGet_scoreSet]
  · simp [hs, hne, notified, scoreGet_scoreSet]

theorem checkPass_one_each (courses : List Course) (tr : ScoreTracker)
    (hone : ∀ c ∈ courses, ∃ e, c.Enrollments = [e])
    (hnd : (courses.map (fun c => c.ID)).Nodup) :
    (checkPass courses tr).1 =
        (courses.filter (fun c => decide (currentScore c ≠ scoreGet tr c.ID))).map
          (fun c => c.ID)
    ∧ (∀ c ∈ courses, scoreGet (checkPass courses tr).2 c.ID = currentScore c) := by
  induction courses generalizing tr with
  | nil => exact ⟨rfl, fun c hc => absurd hc (List.not_mem_nil c)⟩
  | cons c cs ih =>
    obtain ⟨e, he⟩ := hone c (List.mem_cons_self _ _)
    rw [List.map_cons, List.nodup_cons] at hnd
    obtain ⟨hnot, hnd'⟩ := hnd
    have hother : ∀ d ∈ cs, d.ID ≠ c.ID := by
      intro d hd hc
      exact hnot (hc ▸ List.mem_map_of_mem (fun c => c.ID) hd)
    have hcur : currentScore c = e.ComputedCurrentScore := by simp [currentScore, he]
    have hsingle := checkPass_single c e tr he
    obtain ⟨ih1, ih2⟩ := ih (checkPass [c] tr).2
      (fun d hd => hone d (List.mem_cons_of_mem _ hd)) hnd'
    -- the tracker after the head course agrees with `tr` away from `c.ID`
    have hagree : ∀ d ∈ cs, scoreGet (checkPass [c] tr).2 d.ID = scoreGet tr d.ID := by
      intro d hd
      apply scoreGet_congr
      rw [hsingle]
      by_cases hs : scoreGet tr c.ID = e.ComputedCurrentScore
      · simp [hs]
      · simp [hs, scoreSet, hother d hd]
    have hhead : scoreGet (checkPass [c] tr).2 c.ID = e.ComputedCurrentScore := by
      rw [hsingle]
      by_cases hs : scoreGet tr c.ID = e.ComputedCurrentScore
      · simp [hs]
      · simp [hs, scoreGet_scoreSet]
    have hfilter : cs.filter (fun d => decide (currentScore d ≠ scoreGet (checkPass [c] tr).2 d.ID))
        = cs.filter (fun d => decide (currentScore d ≠ scoreGet tr d.ID)) := by
      apply List.filter_congr
      intro d hd
      rw [hagree d hd]
    rw [checkPass_cons]
    refine ⟨?_, ?_⟩
    · show (checkPass [c] tr).1 ++ (checkPass cs (checkPass [c] tr).2).1 = _
      rw [ih1, hfilter, hsingle]
      by_cases hs : scoreGet tr c.ID = e.ComputedCurrentScore
      · rw [List.filter_cons_of_neg (by simp [hcur, hs])]
        simp [hs]
      · rw [List.filter_cons_of_pos (by
          simp only [hcur, decide_eq_true_eq]
          exact fun hc => hs hc.symm)]
        simp [hs]
    · intro d hd
      show scoreGet (checkPass cs (checkPass [c] tr).2).2 d.ID = currentScore d
      rcases List.mem_cons.mp hd with hdc | hd'
      · rw [hdc, scoreGet_congr _ _ _ (checkPass_other cs (checkPass [c] tr).2 c.ID hother).1,
          hhead, hcur]
      · exact ih2 d hd'

/-- C4: in a check pass of the hourly loop over course records with one
enrollment each and pairwise distinct identifiers, from any tracker, the
courses notified about are exactly, in order, those whose current score
differs from the tracked value (zero when absent), and afterwards the tracked
value of every checked course is its current score; a successful turn of the
loop is such a pass.  From the empty tracker, with C1 at 70.0 and C2 at 85.5,
the first pass notifies for both, a second pass with the same scores for
neither, and a third pass with C1 at 72.0 for C1 only. -/
theorem hourly_check_notifies_changed (courses : List Course) (tr : ScoreTracker)
    (hone : ∀ c ∈ courses, ∃ e, c.Enrollments = [e])
    (hnd : (courses.map (fun c => c.ID)).Nodup) :
    (checkPass courses tr).1 =
        (courses.filter (fun c => decide (currentScore c ≠ scoreGet tr c.ID))).map
          (fun c => c.ID)
    ∧ (∀ c ∈ courses, scoreGet (checkPass courses tr).2 c.ID = currentScore c)
    ∧ (∀ s : HourlyState,
        (hourlyIteration s (some courses)).globalScoreTracker =
            (checkPass courses s.globalScoreTracker).2
        ∧ notified (hourlyIteration s (some courses)).log =
            notified s.log ++ (checkPass courses s.globalScoreTracker).1)
    ∧ (startHourlyGradeReminderBot
          [some [gradeCourse 1 "C1" 70, gradeCourse 2 "C2" 85.5],
           some [gradeCourse 1 "C1" 70, gradeCourse 2 "C2" 85.5],
           some [gradeCourse 1 "C1" 72, gradeCourse 2 "C2" 85.5]]).log =
        [HourlyEvent.fetched true,
         HourlyEvent.scoreChange 1 "C1" 70, HourlyEvent.scoreChange 2 "C2" 85.5,
         HourlyEvent.sleep Hour,
         HourlyEvent.fetched true, HourlyEvent.sleep Hour,
         HourlyEvent.fetched true, HourlyEvent.scoreChange 1 "C1" 72,
         HourlyEvent.sleep Hour] := by
  obtain ⟨h1, h2⟩ := checkPass_one_each courses tr hone hnd
  refine ⟨h1, h2, ?_, ?_⟩
  · intro s
    have hf := checkCourses_frame courses s.globalScoreTracker (s.log ++ [HourlyEvent.fetched true])
    simp only [hourlyIteration, checkPass]
    rw [hf]
    simp [notified_append, notified]
  · norm_num [startHourlyGradeReminderBot, hourlyIteration, checkCourses, checkCourse,
      checkEnrollment, gradeCourse, scoreGet_scoreSet, scoreGet_scoreSet_ne, scoreGet_empty]

/-- C4, at a concrete pass: from the empty tracker, with C1 at 70.0 and C2 at
85.5, both courses are notified about and both scores are then tracked. -/
theorem hourly_check_notifies_changed_witness :
    (checkPass [gradeCourse 1 "C1" 70, gradeCourse 2 "C2" 85.5] (fun _ => none)).1 = [1, 2]
    ∧ scoreGet (checkPass [gradeCourse 1 "C1" 70, gradeCourse 2 "C2" 85.5]
        (fun _ => none)).2 2 = 85.5 := by
  have h := hourly_check_notifies_changed
    [gradeCourse 1 "C1" 70, gradeCourse 2 "C2" 85.5] (fun _ => none)
    (by
      intro c hc
      simp only [List.mem_cons, List.mem_singleton, List.not_mem_nil, or_false] at hc
      rcases hc with rfl | rfl <;> exact ⟨_, rfl⟩)
    (by decide)
  refine ⟨?_, ?_⟩
  · rw [h.1]
    norm_num [List.filter_cons, gradeCourse, currentScore, scoreGet_empty]
  · exact h.2.1 (gradeCourse 2 "C2" 85.5) (by simp)

/-- C7 as stated fails: from the empty tracker, a course whose first observed
score is zero is not treated as changed; the first pass sends no notification
for it. -/
theorem first_zero_score_not_notified :
    (startHourlyGradeReminderBot [some [gradeCourse 1 "C1" 0]]).log =
      [HourlyEvent.fetched true, HourlyEvent.sleep Hour]
    ∧ notified (startHourlyGradeReminderBot [some [gradeCourse 1 "C1" 0]]).log = [] := by
  constructor <;>
    norm_num [startHourlyGradeReminderBot, hourlyIteration, checkCourses, checkCourse,
      checkEnrollment, gradeCourse, scoreGet_empty, notified]

/-- C7, amended: when a course has no entry in the score tracker (as for every
course at start, the tracker being empty), the first score observed for it is
treated as changed, and triggers a notification, exactly when it is non-zero;
in either case the score is the tracked value afterwards.  In particular the
first pass of the loop over one course record with one enrollment notifies
about the course exactly when its score is non-zero. -/
theorem first_score_notifies_iff_nonzero (c : Course) (e : Enrollment) (s : HourlyState)
    (h : s.globalScoreTracker c.ID = none) :
    (checkEnrollment c s e).log =
        (if e.ComputedCurrentScore = 0 then s.log
         else s.log ++ [HourlyEvent.scoreChange c.ID c.CourseCode e.ComputedCurrentScore])
    ∧ scoreGet (checkEnrollment c s e).globalScoreTracker c.ID = e.ComputedCurrentScore
    ∧ (c.Enrollments = [e] →
        (c.ID ∈ notified (startHourlyGradeReminderBot [some [c]]).log ↔
          e.ComputedCurrentScore ≠ 0)) := by
  have h0 : scoreGet s.globalScoreTracker c.ID = 0 := by simp [scoreGet, h]
  refine ⟨?_, ?_, ?_⟩
  · unfold checkEnrollment
    rw [h0]
    by_cases hz : e.ComputedCurrentScore = 0
    · simp [hz]
    · have hz' : ¬ ((0 : ℚ) = e.ComputedCurrentScore) := fun hc => hz hc.symm
      simp [hz, hz']
  · unfold checkEnrollment
    rw [h0]
    by_cases hz : e.ComputedCurrentScore = 0
    · simp [hz, h0]
    · have hz' : ¬ ((0 : ℚ) = e.ComputedCurrentScore) := fun hc => hz hc.symm
      simp [hz', scoreGet_scoreSet]
  · intro he
    by_cases hz : e.ComputedCurrentScore = 0
    · simp [startHourlyGradeReminderBot, hourlyIteration, checkCourses, checkCourse,
        checkEnrollment, he, scoreGet_empty, hz, notified]
    · have hz' : ¬ ((0 : ℚ) = e.ComputedCurrentScore) := fun hc => hz hc.symm
      simp [startHourlyGradeReminderBot, hourlyIteration, checkCourses, checkCourse,
        checkEnrollment, he, scoreGet_empty, hz, hz', notified]

/-- C7 amended, at a concrete input: a first score of 70 observed for course 1
from the empty tracker is notified and tracked. -/
theorem first_score_notifies_iff_nonzero_witness :
    (checkEnrollment (gradeCourse 1 "C1" 70) { globalScoreTracker := fun _ => none, log := [] }
        ⟨"", 70, "", "", 70⟩).log = [HourlyEvent.scoreChange 1 "C1" 70]
    ∧ (1 : Int) ∈ notified (startHourlyGradeReminderBot [some [gradeCourse 1 "C1" 70]]).log := by
  have h := first_score_notifies_iff_nonzero (gradeCourse 1 "C1" 70) ⟨"", 70, "", "", 70⟩
    { globalScoreTracker := fun _ => none, log := [] } rfl
  refine ⟨?_, ?_⟩
  · rw [h.1]
    norm_num [gradeCourse]
  · exact (h.2.2 rfl).mpr (by norm_num)

/-- C10: the hourly check tracks one score per course.  For a course record with
two enrollment records whose current scores differ, in a list where no other
record has its identifier, every check pass (from any tracker) sends at least
one notification for the course and leaves the score of its last enrollment
record as tracked value; and a further pass over the same records, where no
score changed, sends exactly two notifications for it and again leaves the
score of the last enrollment record. -/
theorem two_enrollments_always_notify (before after : List Course) (c : Course)
    (e1 e2 : Enrollment) (tr : ScoreTracker)
    (h : c.Enrollments = [e1, e2])
    (hne : e1.ComputedCurrentScore ≠ e2.ComputedCurrentScore)
    (hother : ∀ d ∈ before ++ after, d.ID ≠ c.ID) :
    1 ≤ (checkPass (before ++ c :: after) tr).1.count c.ID
    ∧ scoreGet (checkPass (before ++ c :: after) tr).2 c.ID = e2.ComputedCurrentScore
    ∧ (checkPass (before ++ c :: after) (checkPass (before ++ c :: after) tr).2).1.count c.ID = 2
    ∧ scoreGet (checkPass (before ++ c :: after)
        (checkPass (before ++ c :: after) tr).2).2 c.ID = e2.ComputedCurrentScore := by
  have hb : ∀ d ∈ before, d.ID ≠ c.ID := fun d hd => hother d (List.mem_append_left _ hd)
  have ha : ∀ d ∈ after, d.ID ≠ c.ID := fun d hd => hother d (List.mem_append_right _ hd)
  -- one pass, from any tracker
  have pass : ∀ t : ScoreTracker,
      (checkPass (before ++ c :: after) t).1.count c.ID =
          (if scoreGet t c.ID = e1.ComputedCurrentScore then 1 else 2)
      ∧ scoreGet (checkPass (before ++ c :: after) t).2 c.ID = e2.ComputedCurrentScore := by
    intro t
    obtain ⟨hb1, hb2⟩ := checkPass_other before t c.ID hb
    obtain ⟨hp1, hp2⟩ := checkPass_pair c e1 e2 (checkPass before t).2 h hne
    obtain ⟨ha1, ha2⟩ := checkPass_other after (checkPass [c] (checkPass before t).2).2 c.ID ha
    rw [checkPass_append, checkPass_cons]
    refine ⟨?_, ?_⟩
    · show ((checkPass before t).1 ++ ((checkPass [c] (checkPass before t).2).1 ++
          (checkPass after (checkPass [c] (checkPass before t).2).2).1)).count c.ID = _
      rw [List.count_append, List.count_append, hb2, ha2, hp1,
        scoreGet_congr _ _ _ hb1]
      by_cases hs : scoreGet t c.ID = e1.ComputedCurrentScore <;> simp [hs]
    · show scoreGet (checkPass after (checkPass [c] (checkPass before t).2).2).2 c.ID = _
      rw [scoreGet_congr _ _ _ ha1, hp2]
  obtain ⟨p1, p2⟩ := pass tr
  obtain ⟨q1, q2⟩ := pass (checkPass (before ++ c :: after) tr).2
  refine ⟨?_, p2, ?_, q2⟩
  · rw [p1]
    split_ifs <;> omega
  · rw [q1, p2, if_neg (fun hc => hne hc.symm)]

/-- C10, at a concrete input: a course with enrollment scores 70 and 85.5,
checked after another course, is notified about in the first pass, and twice in
the second pass over the same records. -/
theorem two_enrollments_always_notify_witness :
    1 ≤ (checkPass ([gradeCourse 1 "C1" 90] ++ twoTermCourse 2 "C2" 70 85.5 :: [])
        (fun _ => none)).1.count (twoTermCourse 2 "C2" 70 85.5).ID
    ∧ (checkPass ([gradeCourse 1 "C1" 90] ++ twoTermCourse 2 "C2" 70 85.5 :: [])
        (checkPass ([gradeCourse 1 "C1" 90] ++ twoTermCourse 2 "C2" 70 85.5 :: [])
          (fun _ => none)).2).1.count (twoTermCourse 2 "C2" 70 85.5).ID = 2 := by
  have h := two_enrollments_always_notify [gradeCourse 1 "C1" 90] []
    (twoTermCourse 2 "C2" 70 85.5) ⟨"", 70, "", "", 70⟩ ⟨"", 85.5, "", "", 85.5⟩
    (fun _ => none) rfl (by norm_num) (by
      intro d hd
      simp only [List.append_nil, List.mem_singleton] at hd
      subst hd
      decide)
  exact ⟨h.1, h.2.2.1⟩

theorem posts_sendLoop (recipients : List String) (http : String → PostResult)
    (message : String) :
    posts (sendLoop recipients http message) = recipients.map (fun c => (c, message)) := by
  have posts_append : ∀ l1 l2 : List SendEvent, posts (l1 ++ l2) = posts l1 ++ posts l2 := by
    intro l1 l2
    induction l1 with
    | nil => rfl
    | cons ev rest ih => cases ev <;> simp [posts, ih]
  have key : ∀ (rs : List String) (acc : List SendEvent),
      posts (rs.foldl (sendOne http message) acc) =
        posts acc ++ rs.map (fun c => (c, message)) := by
    intro rs
    induction rs with
    | nil => intro acc; simp
    | cons r rest ih =>
      intro acc
      rw [List.foldl_cons, ih]
      have hone : posts (sendOne http message acc r) = posts acc ++ [(r, message)] := by
        unfold sendOne
        cases http r with
        | transportError => simp [posts_append, posts]
        | response code ok =>
          by_cases h200 : code = 200
          · simp [h200, posts_append, posts]
          · cases ok <;> simp [h200, posts_append, posts]
      rw [hone]
      simp
  simpa [sendLoop, posts] using key recipients []

/-- C9: when loading the configuration does not fail and the bot token is set,
`sendMessage` returns no error, whatever the outcome of each post (transport
error, success or non-success status), and the posts attempted are exactly one
per configured recipient, in order, each carrying the message; this holds for
any slice of recipients, and so for the slice of the source. -/
theorem sendMessage_posts_to_all (recipients : List String) (dotEnv : Option Bool)
    (botToken : String) (http : String → PostResult) (message : String)
    (henv : dotEnv ≠ some false) (htoken : botToken ≠ "") :
    (∃ events, sendMessageTo recipients dotEnv botToken http message =
        SendResult.returned none events
      ∧ posts events = recipients.map (fun c => (c, message)))
    ∧ (∃ events, sendMessage dotEnv botToken http message = SendResult.returned none events
      ∧ posts events = chatIDs.map (fun c => (c, message))) := by
  have main : ∀ rs : List String, ∃ events,
      sendMessageTo rs dotEnv botToken http message = SendResult.returned none events
      ∧ posts events = rs.map (fun c => (c, message)) := by
    intro rs
    refine ⟨sendLoop rs http message, ?_, posts_sendLoop rs http message⟩
    unfold sendMessageTo
    rw [if_neg henv, if_neg htoken]
  exact ⟨main recipients, main chatIDs⟩

/-- C9, at a concrete call: with three recipients, a transport error for the
first and a status 403 for the second, all three posts are attempted in order
and no error is returned. -/
theorem sendMessage_posts_to_all_witness :
    ∃ events,
      sendMessageTo ["1", "2", "3"] none "token"
          (fun c => if c = "1" then PostResult.transportError
            else if c = "2" then PostResult.response 403 false
            else PostResult.response 200 true) "hello" =
        SendResult.returned none events
      ∧ posts events = [("1", "hello"), ("2", "hello"), ("3", "hello")] :=
  (sendMessage_posts_to_all ["1", "2", "3"] none "token"
    (fun c => if c = "1" then PostResult.transportError
      else if c = "2" then PostResult.response 403 false
      else PostResult.response 200 true) "hello" (by decide) (by decide)).1

end TelegramAI
